import Mathlib

/-!
Verification of the media upload, deduplicated-reaction and realtime-merge
synchronization model of the event-photo-sharing application.

The definitions below are a shallow embedding of the repository's code:
the reactions table and its unique constraint come from the supabase
migration, the guest page handlers from GuestView.tsx, the owner page
handler and the download hook from the remaining components.
-/

namespace MemoryWeaveHub

/-- A row of the `reactions` table (migration lines 29 to 36): primary key
`id`, the reacted-to photo, the emoji kind and the session's guest
identifier. -/
structure Reaction where
  id : String
  photo_id : String
  emoji : String
  guest_identifier : String
  deriving DecidableEq

/-- Comparison of the columns covered by the table's unique constraint
`UNIQUE(photo_id, emoji, guest_identifier)` (migration line 35). -/
def sameTriple (a b : Reaction) : Bool :=
  a.photo_id == b.photo_id && a.emoji == b.emoji && a.guest_identifier == b.guest_identifier

/-- Insert into the reactions store: the unique constraint rejects a row
whose (photo_id, emoji, guest_identifier) triple is already present
(migration lines 29 to 36). -/
def dbInsertReaction (db : List Reaction) (r : Reaction) : Except Unit (List Reaction) :=
  if db.any (fun x => sameTriple x r) then Except.error () else Except.ok (r :: db)

/-- Delete from the reactions store by primary key, as issued by
`.delete().eq('id', ...)` (GuestView.tsx lines 222 to 225). -/
def dbDeleteReaction (db : List Reaction) (rowId : String) : List Reaction :=
  db.filter (fun r => !(r.id == rowId))

/-- A write to the reactions store: every mutation is a constrained insert
or a delete by row id. -/
inductive DbStep : List Reaction → List Reaction → Prop
  | insert (db : List Reaction) (r : Reaction) (db2 : List Reaction) :
      dbInsertReaction db r = Except.ok db2 → DbStep db db2
  | delete (db : List Reaction) (rowId : String) : DbStep db (dbDeleteReaction db rowId)

/-- States of the reactions store reachable from the empty store through
constrained writes. -/
inductive ReachableReactions : List Reaction → Prop
  | empty : ReachableReactions []
  | step {db db2 : List Reaction} :
      ReachableReactions db → DbStep db db2 → ReachableReactions db2

/-- At most one reaction row per (photo, emoji, guest) triple. -/
def uniqueTriples (db : List Reaction) : Prop :=
  List.Pairwise (fun a b => sameTriple a b = false) db

/-- The guest page's reaction-related state: the per-session guest identifier
(GuestView.tsx line 47), the backing store and the locally fetched reaction
list. -/
structure GuestState where
  guestId : String
  db : List Reaction
  localReactions : List Reaction

/-- `fetchReactions` (GuestView.tsx lines 135 to 141): select all reactions
and replace the local list. -/
def fetchReactions (s : GuestState) : GuestState :=
  { s with localReactions := s.db }

/-- The row predicate `handleReaction` and `hasReacted` both use: photo id,
emoji and the session's guest identifier all match (GuestView.tsx lines
217 to 219 and 246 to 250). -/
def reactionMatches (r : Reaction) (photoId emoji guestId : String) : Bool :=
  r.photo_id == photoId && r.emoji == emoji && r.guest_identifier == guestId

/-- `hasReacted` (GuestView.tsx lines 246 to 250) over an explicit reaction
list and guest identifier. -/
def hasReactedList (reactions : List Reaction) (guestId photoId emoji : String) : Bool :=
  reactions.any (fun r => reactionMatches r photoId emoji guestId)

/-- `handleReaction` (GuestView.tsx lines 216 to 235): look for an existing
row in the local list; when found, delete it by id, otherwise insert a fresh
row — an insert the unique constraint rejects is ignored. Either branch ends
with `fetchReactions`. The second component lists the notifications shown to
the user; `handleReaction` shows none. -/
def handleReaction (s : GuestState) (photoId emoji freshId : String) :
    GuestState × List String :=
  match s.localReactions.find? (fun r => reactionMatches r photoId emoji s.guestId) with
  | some existing => (fetchReactions { s with db := dbDeleteReaction s.db existing.id }, [])
  | none =>
      match dbInsertReaction s.db
          { id := freshId, photo_id := photoId, emoji := emoji,
            guest_identifier := s.guestId } with
      | Except.ok db2 => (fetchReactions { s with db := db2 }, [])
      | Except.error _ => (fetchReactions s, [])

theorem str_beq_comm (a b : String) : (a == b) = (b == a) := by
  by_cases h : a = b
  · subst h; rfl
  · rw [beq_eq_false_iff_ne.mpr h, beq_eq_false_iff_ne.mpr (Ne.symm h)]

theorem sameTriple_comm (a b : Reaction) : sameTriple a b = sameTriple b a := by
  unfold sameTriple
  rw [str_beq_comm a.photo_id b.photo_id, str_beq_comm a.emoji b.emoji,
    str_beq_comm a.guest_identifier b.guest_identifier]

theorem sameTriple_mk (x : Reaction) (i p e g : String) :
    sameTriple x { id := i, photo_id := p, emoji := e, guest_identifier := g } =
      reactionMatches x p e g := rfl

theorem uniqueTriples_insert {db db2 : List Reaction} {r : Reaction}
    (h : dbInsertReaction db r = Except.ok db2) (hu : uniqueTriples db) :
    uniqueTriples db2 := by
  unfold dbInsertReaction at h
  split at h
  · exact absurd h (by simp)
  · cases h
    refine List.pairwise_cons.mpr ⟨?_, hu⟩
    intro x hx
    rw [sameTriple_comm]
    have hany : db.any (fun x => sameTriple x r) = false := by
      simp only [Bool.not_eq_true] at *
      assumption
    simpa using (List.any_eq_false.mp hany) x hx

theorem uniqueTriples_delete {db : List Reaction} (rowId : String)
    (hu : uniqueTriples db) : uniqueTriples (dbDeleteReaction db rowId) :=
  List.Pairwise.sublist (List.filter_sublist db) hu

/-- C1: in every reachable state of the reaction store at most one row exists
per (photo, emoji, guest) triple; the uniqueness is enforced by the store
itself, whose insert rejects a duplicate triple; and the guest page treats a
rejected insert as already-reacted, leaving the store unchanged and surfacing
no notification. -/
theorem claim_C1_reaction_uniqueness :
    (∀ db, ReachableReactions db → uniqueTriples db) ∧
    (∀ (db : List Reaction) (r : Reaction),
      (∃ x ∈ db, sameTriple x r = true) → dbInsertReaction db r = Except.error ()) ∧
    (∀ (s : GuestState) (photoId emoji freshId : String),
      s.localReactions.find? (fun r => reactionMatches r photoId emoji s.guestId) = none →
      s.db.any (fun x => reactionMatches x photoId emoji s.guestId) = true →
      handleReaction s photoId emoji freshId = (fetchReactions s, [])) := by
  refine ⟨?_, ?_, ?_⟩
  · intro db h
    induction h with
    | empty => exact List.Pairwise.nil
    | step _ hs ih =>
        cases hs with
        | insert r db2 hok => exact uniqueTriples_insert hok ih
        | delete rowId => exact uniqueTriples_delete rowId ih
  · intro db r ⟨x, hx, hst⟩
    unfold dbInsertReaction
    have : db.any (fun x => sameTriple x r) = true := List.any_eq_true.mpr ⟨x, hx, hst⟩
    simp [this]
  · intro s photoId emoji freshId hfind hany
    unfold handleReaction
    rw [hfind]
    have hrej : dbInsertReaction s.db
        { id := freshId, photo_id := photoId, emoji := emoji,
          guest_identifier := s.guestId } = Except.error () := by
      unfold dbInsertReaction
      have : s.db.any (fun x => sameTriple x
          { id := freshId, photo_id := photoId, emoji := emoji,
            guest_identifier := s.guestId }) = true := by
        simpa [sameTriple_mk] using hany
      simp [this]
    rw [hrej]

/-- Concrete instance of C1: the empty store is reachable and duplicate-free;
a second `heart` by the same guest on the same photo is rejected by the
store's unique constraint; and the guest page swallows that rejection,
leaving the store untouched and showing nothing. -/
theorem claim_C1_reaction_uniqueness_witness :
    uniqueTriples [] ∧
    dbInsertReaction [⟨"r1", "p1", "heart", "g1"⟩] ⟨"r2", "p1", "heart", "g1"⟩ =
      Except.error () ∧
    handleReaction ⟨"g1", [⟨"r1", "p1", "heart", "g1"⟩], []⟩ "p1" "heart" "r2" =
      (fetchReactions ⟨"g1", [⟨"r1", "p1", "heart", "g1"⟩], []⟩, []) := by
  refine ⟨claim_C1_reaction_uniqueness.1 [] ReachableReactions.empty,
    claim_C1_reaction_uniqueness.2.1 _ _ ⟨⟨"r1", "p1", "heart", "g1"⟩, by decide, by decide⟩,
    claim_C1_reaction_uniqueness.2.2 _ _ _ _ (by decide) (by decide)⟩

theorem sameTriple_symmetric :
    Symmetric (fun a b : Reaction => sameTriple a b = false) := by
  intro a b h
  rw [sameTriple_comm]
  exact h

theorem matches_matches_sameTriple {r ex : Reaction} {photoId emoji guestId : String}
    (hr : reactionMatches r photoId emoji guestId = true)
    (hex : reactionMatches ex photoId emoji guestId = true) :
    sameTriple r ex = true := by
  unfold reactionMatches at hr hex
  unfold sameTriple
  simp only [Bool.and_eq_true, beq_iff_eq] at hr hex ⊢
  exact ⟨⟨hr.1.1.trans hex.1.1.symm, hr.1.2.trans hex.1.2.symm⟩, hr.2.trans hex.2.symm⟩

/-- C2: awaiting each call, toggling the same (photo, emoji) twice from a
synchronized state returns the store to the original reacted state for the
session's triple, the first call having inverted it. The hypotheses state
that the client list was fetched (the first call was awaited), that the
store satisfies its unique constraint and primary key, and that the fresh
row id is unused. -/
theorem claim_C2_toggle_twice (s : GuestState) (photoId emoji id1 id2 : String)
    (hsync : s.localReactions = s.db)
    (hu : uniqueTriples s.db)
    (hfresh : ∀ r ∈ s.db, r.id ≠ id1) :
    hasReactedList (handleReaction s photoId emoji id1).1.db s.guestId photoId emoji
      = !(hasReactedList s.db s.guestId photoId emoji) ∧
    hasReactedList
        (handleReaction (handleReaction s photoId emoji id1).1 photoId emoji id2).1.db
        s.guestId photoId emoji
      = hasReactedList s.db s.guestId photoId emoji := by
  cases hfind : s.localReactions.find? (fun r => reactionMatches r photoId emoji s.guestId) with
  | none =>
    have hfinddb : s.db.find? (fun r => reactionMatches r photoId emoji s.guestId) = none :=
      hsync ▸ hfind
    have hdbnone : ∀ r ∈ s.db, ¬ reactionMatches r photoId emoji s.guestId = true :=
      fun r hr => List.find?_eq_none.mp hfinddb r hr
    have hany0 : s.db.any (fun r => reactionMatches r photoId emoji s.guestId) = false :=
      List.any_eq_false.mpr hdbnone
    have hins : dbInsertReaction s.db ⟨id1, photoId, emoji, s.guestId⟩ =
        Except.ok (⟨id1, photoId, emoji, s.guestId⟩ :: s.db) := by
      unfold dbInsertReaction
      have h2 : s.db.any (fun x => sameTriple x ⟨id1, photoId, emoji, s.guestId⟩) = false := by
        rw [List.any_eq_false]
        intro x hx
        rw [sameTriple_mk]
        exact hdbnone x hx
      simp [h2]
    have ht1 : handleReaction s photoId emoji id1 =
        (fetchReactions { s with db := ⟨id1, photoId, emoji, s.guestId⟩ :: s.db }, []) := by
      unfold handleReaction
      rw [hfind, hins]
    have hpredrow : reactionMatches ⟨id1, photoId, emoji, s.guestId⟩ photoId emoji s.guestId
        = true := by
      simp [reactionMatches]
    have hfilter :
        dbDeleteReaction ((⟨id1, photoId, emoji, s.guestId⟩ : Reaction) :: s.db) id1 = s.db := by
      unfold dbDeleteReaction
      rw [List.filter_cons]
      have hq : (!((⟨id1, photoId, emoji, s.guestId⟩ : Reaction).id == id1)) = false := by simp
      rw [hq]
      simp only [Bool.false_eq_true, if_false]
      rw [List.filter_eq_self.mpr]
      intro r hr
      simp [beq_eq_false_iff_ne.mpr (hfresh r hr)]
    constructor
    · rw [ht1]
      show ((⟨id1, photoId, emoji, s.guestId⟩ : Reaction) :: s.db).any
          (fun r => reactionMatches r photoId emoji s.guestId)
        = !(s.db.any (fun r => reactionMatches r photoId emoji s.guestId))
      rw [List.any_cons, hany0, hpredrow]
      rfl
    · rw [ht1]
      show hasReactedList
          (handleReaction
            ⟨s.guestId, ⟨id1, photoId, emoji, s.guestId⟩ :: s.db,
              ⟨id1, photoId, emoji, s.guestId⟩ :: s.db⟩ photoId emoji id2).1.db
          s.guestId photoId emoji
        = hasReactedList s.db s.guestId photoId emoji
      have hfind2 : ((⟨id1, photoId, emoji, s.guestId⟩ : Reaction) :: s.db).find?
          (fun r => reactionMatches r photoId emoji s.guestId)
          = some ⟨id1, photoId, emoji, s.guestId⟩ :=
        List.find?_cons_of_pos _ hpredrow
      unfold handleReaction
      rw [hfind2]
      show hasReactedList
          (fetchReactions
            { guestId := s.guestId,
              db := dbDeleteReaction ((⟨id1, photoId, emoji, s.guestId⟩ : Reaction) :: s.db) id1,
              localReactions := ⟨id1, photoId, emoji, s.guestId⟩ :: s.db }).db
          s.guestId photoId emoji
        = hasReactedList s.db s.guestId photoId emoji
      rw [show (fetchReactions
            { guestId := s.guestId,
              db := dbDeleteReaction ((⟨id1, photoId, emoji, s.guestId⟩ : Reaction) :: s.db) id1,
              localReactions := ⟨id1, photoId, emoji, s.guestId⟩ :: s.db }).db
          = dbDeleteReaction ((⟨id1, photoId, emoji, s.guestId⟩ : Reaction) :: s.db) id1 from rfl]
      rw [hfilter]
  | some ex =>
    have hpred : reactionMatches ex photoId emoji s.guestId = true := by
      have h := List.find?_some hfind
      simpa using h
    have hmemdb : ex ∈ s.db := hsync ▸ List.mem_of_find?_eq_some hfind
    have ht1 : handleReaction s photoId emoji id1 =
        (fetchReactions { s with db := dbDeleteReaction s.db ex.id }, []) := by
      unfold handleReaction
      rw [hfind]
    have hafter : ∀ r ∈ dbDeleteReaction s.db ex.id,
        reactionMatches r photoId emoji s.guestId = false := by
      intro r hr
      obtain ⟨hrdb, hrkeep⟩ := List.mem_filter.mp hr
      have hidne : r.id ≠ ex.id := by
        intro hcontra
        rw [hcontra] at hrkeep
        simp at hrkeep
      have hrne : r ≠ ex := fun hc => hidne (congrArg Reaction.id hc)
      have hst : sameTriple r ex = false := (hu.forall sameTriple_symmetric) hrdb hmemdb hrne
      by_contra hnot
      simp only [Bool.not_eq_false] at hnot
      have := matches_matches_sameTriple hnot hpred
      rw [hst] at this
      exact Bool.false_ne_true this
    have hany1 : (dbDeleteReaction s.db ex.id).any
        (fun r => reactionMatches r photoId emoji s.guestId) = false := by
      rw [List.any_eq_false]
      intro r hr
      simp [hafter r hr]
    have hany_orig : s.db.any (fun r => reactionMatches r photoId emoji s.guestId) = true :=
      List.any_eq_true.mpr ⟨ex, hmemdb, hpred⟩
    have hfind3 : (dbDeleteReaction s.db ex.id).find?
        (fun r => reactionMatches r photoId emoji s.guestId) = none :=
      List.find?_eq_none.mpr (fun r hr => by simp [hafter r hr])
    have hins2 : dbInsertReaction (dbDeleteReaction s.db ex.id)
        ⟨id2, photoId, emoji, s.guestId⟩ =
        Except.ok (⟨id2, photoId, emoji, s.guestId⟩ :: dbDeleteReaction s.db ex.id) := by
      unfold dbInsertReaction
      have h2 : (dbDeleteReaction s.db ex.id).any
          (fun x => sameTriple x ⟨id2, photoId, emoji, s.guestId⟩) = false := by
        rw [List.any_eq_false]
        intro x hx
        rw [sameTriple_mk]
        simp [hafter x hx]
      simp [h2]
    constructor
    · rw [ht1]
      show (dbDeleteReaction s.db ex.id).any (fun r => reactionMatches r photoId emoji s.guestId)
        = !(s.db.any (fun r => reactionMatches r photoId emoji s.guestId))
      rw [hany1, hany_orig]
      rfl
    · rw [ht1]
      show hasReactedList
          (handleReaction
            ⟨s.guestId, dbDeleteReaction s.db ex.id, dbDeleteReaction s.db ex.id⟩
            photoId emoji id2).1.db
          s.guestId photoId emoji
        = hasReactedList s.db s.guestId photoId emoji
      unfold handleReaction
      rw [hfind3, hins2]
      show (⟨id2, photoId, emoji, s.guestId⟩ :: dbDeleteReaction s.db ex.id).any
          (fun r => reactionMatches r photoId emoji s.guestId)
        = s.db.any (fun r => reactionMatches r photoId emoji s.guestId)
      rw [List.any_cons, hany_orig]
      simp [reactionMatches]

/-- Concrete instance of C2: starting from the empty store, toggling `heart`
on a photo twice first marks the session as reacted and then returns it to
not reacted. -/
theorem claim_C2_toggle_twice_witness :
    hasReactedList (handleReaction ⟨"g1", [], []⟩ "p1" "heart" "a").1.db "g1" "p1" "heart"
      = !(hasReactedList ([] : List Reaction) "g1" "p1" "heart") ∧
    hasReactedList
        (handleReaction (handleReaction ⟨"g1", [], []⟩ "p1" "heart" "a").1 "p1" "heart" "b").1.db
        "g1" "p1" "heart"
      = hasReactedList ([] : List Reaction) "g1" "p1" "heart" :=
  claim_C2_toggle_twice ⟨"g1", [], []⟩ "p1" "heart" "a" "b" rfl
    List.Pairwise.nil (by simp)

/-- Outcome of letting a video element report loaded metadata for one file
(GuestView.tsx lines 167 to 186): the decoding surface resolves with the
metadata, the extraction throws synchronously into the catch, or the promise
executor never settles because no loadedmetadata event ever fires and the
executor has no rejection path. -/
inductive MetaOutcome
  | resolves (duration width height : Nat)
  | throwsSync
  | neverSettles
  deriving DecidableEq

/-- One user-selected file together with the environment's response to its
network calls: whether the blob upload succeeds, how the metadata surface
behaves, and whether the record insert succeeds. `rand` stands for the
time-and-random factor of the derived storage key. -/
structure UploadFile where
  name : String
  mime : String
  size : Nat
  rand : String
  uploadOk : Bool
  meta : MetaOutcome
  dbOk : Bool
  deriving DecidableEq

/-- The MIME-prefix video check `file.type.startsWith('video/')`
(GuestView.tsx line 152), over the strings' character lists. -/
def isVideoMime (mime : String) : Bool :=
  List.isPrefixOf (("video/").toList) mime.toList

/-- The extension taken from the file name, as by split on the dot and pop
(GuestView.tsx line 150), over the name's character list. -/
def fileExtOf (name : String) : String :=
  String.mk ((((name.toList).splitOn ('.')).getLast?).getD [])

/-- A row of the `photos` table as inserted by the uploader
(GuestView.tsx lines 188 to 200). -/
structure MediaRecord where
  event_id : String
  storage_path : String
  uploader_name : Option String
  caption : Option String
  file_type : String
  file_size : Nat
  is_video : Bool
  video_duration : Option Nat
  video_width : Option Nat
  video_height : Option Nat
  file_extension : String
  deriving DecidableEq

/-- The awaited metadata promise: metadata when the surface resolves, null
metadata when the extraction throws into the catch, `none` when the promise
never settles and the await suspends forever. -/
def extractVideoMetadata : MetaOutcome → Option (Option Nat × Option Nat × Option Nat)
  | MetaOutcome.resolves d w h => some (some d, some w, some h)
  | MetaOutcome.throwsSync => some (none, none, none)
  | MetaOutcome.neverSettles => none

/-- The record the per-file loop inserts for an uploaded file
(GuestView.tsx lines 188 to 200). -/
def uploadRecord (eventId uploaderName caption : String) (f : UploadFile)
    (d w h : Option Nat) : MediaRecord :=
  { event_id := eventId,
    storage_path := eventId ++ ("/") ++ f.rand ++ (".") ++ fileExtOf f.name,
    uploader_name := if uploaderName == ("") then none else some uploaderName,
    caption := if caption == ("") then none else some caption,
    file_type := f.mime,
    file_size := f.size,
    is_video := isVideoMime f.mime,
    video_duration := d,
    video_width := w,
    video_height := h,
    file_extension := (".") ++ fileExtOf f.name }

/-- The per-file loop of `handleFileSelect` (GuestView.tsx lines 149 to
205): upload the blob and on failure toast the file's name and continue
with the next file; otherwise best-effort extract video metadata, then
insert the record, toasting when the insert fails. `none` means an awaited
metadata promise never settled, so the loop never finishes. The result
pairs the inserted records with the toasts shown, in order. -/
def uploadBatch (eventId uploaderName caption : String) :
    List UploadFile → Option (List MediaRecord × List String)
  | [] => some ([], [])
  | f :: rest =>
    if f.uploadOk = false then
      match uploadBatch eventId uploaderName caption rest with
      | none => none
      | some (rs, ts) => some (rs, (("Failed to upload ") ++ f.name) :: ts)
    else
      match (if isVideoMime f.mime then extractVideoMetadata f.meta
          else some (none, none, none)) with
      | none => none
      | some (d, w, h) =>
        match uploadBatch eventId uploaderName caption rest with
        | none => none
        | some (rs, ts) =>
          if f.dbOk then some (uploadRecord eventId uploaderName caption f d w h :: rs, ts)
          else some (rs, ("Failed to save upload") :: ts)

/-- `handleFileSelect` (GuestView.tsx lines 143 to 214): run the per-file
loop and finish the settled batch with the closing success toast. -/
def handleFileSelect (eventId uploaderName caption : String) (files : List UploadFile) :
    Option (List MediaRecord × List String) :=
  match uploadBatch eventId uploaderName caption files with
  | none => none
  | some (rs, ts) => some (rs, ts ++ [("Files uploaded!")])

/-- The metadata promise of `f` settles: `f` is not a video whose metadata
surface never reports. -/
def metaSettles (f : UploadFile) : Bool :=
  !(isVideoMime f.mime && (f.meta == MetaOutcome.neverSettles))

theorem uploadBatch_spec (eventId uploaderName caption : String) :
    ∀ files : List UploadFile, (∀ f ∈ files, metaSettles f = true) →
      ∃ rs ts, uploadBatch eventId uploaderName caption files = some (rs, ts) ∧
        rs.length = (files.filter (fun f => f.uploadOk && f.dbOk)).length ∧
        ∀ f ∈ files, f.uploadOk = false → (("Failed to upload ") ++ f.name) ∈ ts := by
  intro files
  induction files with
  | nil => exact fun _ => ⟨[], [], rfl, rfl, by simp⟩
  | cons f rest ih =>
    intro hset
    obtain ⟨rs, ts, hub, hlen, htoast⟩ := ih (fun g hg => hset g (List.mem_cons_of_mem f hg))
    by_cases hup : f.uploadOk = false
    · refine ⟨rs, (("Failed to upload ") ++ f.name) :: ts, ?_, ?_, ?_⟩
      · simp only [uploadBatch]
        rw [if_pos hup, hub]
      · rw [List.filter_cons, hlen]
        simp [hup]
      · intro g hg hgup
        rcases List.mem_cons.mp hg with hgf | hgrest
        · subst hgf
          exact List.mem_cons_self _ _
        · exact List.mem_cons_of_mem _ (htoast g hgrest hgup)
    · have hup2 : f.uploadOk = true := by
        revert hup
        cases f.uploadOk <;> simp
      have hmeta : ∃ x, (if isVideoMime f.mime then extractVideoMetadata f.meta
          else some (none, none, none)) = some x := by
        by_cases hv : isVideoMime f.mime = true
        · have hs := hset f (List.mem_cons_self f rest)
          unfold metaSettles at hs
          rw [hv] at hs
          cases hmo : f.meta with
          | resolves d w hgt =>
              exact ⟨(some d, some w, some hgt), by simp [hv, extractVideoMetadata, hmo]⟩
          | throwsSync => exact ⟨(none, none, none), by simp [hv, extractVideoMetadata, hmo]⟩
          | neverSettles =>
              rw [hmo] at hs
              simp at hs
        · simp [hv]
      obtain ⟨⟨d, w, hgt⟩, hdwh⟩ := hmeta
      by_cases hdb : f.dbOk = true
      · refine ⟨uploadRecord eventId uploaderName caption f d w hgt :: rs, ts, ?_, ?_, ?_⟩
        · simp only [uploadBatch]
          rw [if_neg hup, hdwh, hub]
          simp [hdb]
        · rw [List.filter_cons]
          simp [hup2, hdb, hlen]
        · intro g hg hgup
          rcases List.mem_cons.mp hg with hgf | hgrest
          · subst hgf
            rw [hup2] at hgup
            cases hgup
          · exact htoast g hgrest hgup
      · have hdb2 : f.dbOk = false := by
          revert hdb
          cases f.dbOk <;> simp
        refine ⟨rs, ("Failed to save upload") :: ts, ?_, ?_, ?_⟩
        · simp only [uploadBatch]
          rw [if_neg hup, hdwh, hub]
          simp [hdb2]
        · rw [List.filter_cons, hlen]
          simp [hdb2]
        · intro g hg hgup
          rcases List.mem_cons.mp hg with hgf | hgrest
          · subst hgf
            rw [hup2] at hgup
            cases hgup
          · exact List.mem_cons_of_mem _ (htoast g hgrest hgup)

/-- C3 as amended: provided every video file's metadata promise settles,
the batch completes, a file whose blob upload fails contributes no media
record and a notification naming it, the loop continues past it, the count
of inserted records is exactly that of the files whose upload and insert
succeeded, and the batch closes with a summary toast. -/
theorem claim_C3_partial_failure_upload (eventId uploaderName caption : String)
    (files : List UploadFile) (hset : ∀ f ∈ files, metaSettles f = true) :
    ∃ rs ts, handleFileSelect eventId uploaderName caption files = some (rs, ts) ∧
      rs.length = (files.filter (fun f => f.uploadOk && f.dbOk)).length ∧
      (∀ f ∈ files, f.uploadOk = false → (("Failed to upload ") ++ f.name) ∈ ts) ∧
      ("Files uploaded!") ∈ ts := by
  obtain ⟨rs, ts, hub, hlen, htoast⟩ := uploadBatch_spec eventId uploaderName caption files hset
  refine ⟨rs, ts ++ [("Files uploaded!")], ?_, hlen, ?_, ?_⟩
  · unfold handleFileSelect
    rw [hub]
  · intro f hf hfup
    exact List.mem_append_left _ (htoast f hf hfup)
  · exact List.mem_append_right _ (List.mem_cons_self _ _)

/-- A photo file in a batch: no metadata extraction runs for it. -/
def batchPhoto (n : String) (up : Bool) : UploadFile :=
  { name := n, mime := "image/jpeg", size := 1, rand := "r",
    uploadOk := up, meta := MetaOutcome.resolves 0 0 0, dbOk := true }

/-- A batch of five photos where exactly the second one fails at the blob
upload. -/
def demoBatch : List UploadFile :=
  [batchPhoto ("one.jpg") true, batchPhoto ("two.jpg") false, batchPhoto ("three.jpg") true,
    batchPhoto ("four.jpg") true, batchPhoto ("five.jpg") true]

/-- Concrete instance of C3: in the five-file batch with one blob-upload
failure the batch completes, exactly four records are inserted, and the
failure toast names the failed file. -/
theorem claim_C3_partial_failure_upload_witness :
    (∀ f ∈ demoBatch, metaSettles f = true) ∧
    (demoBatch.filter (fun f => f.uploadOk && f.dbOk)).length = 4 ∧
    (∃ rs ts, handleFileSelect ("e1") ("Ana") ("hi") demoBatch = some (rs, ts) ∧
      rs.length = (demoBatch.filter (fun f => f.uploadOk && f.dbOk)).length ∧
      (∀ f ∈ demoBatch, f.uploadOk = false → (("Failed to upload ") ++ f.name) ∈ ts) ∧
      ("Files uploaded!") ∈ ts) :=
  ⟨by decide, by decide,
    claim_C3_partial_failure_upload ("e1") ("Ana") ("hi") demoBatch (by decide)⟩

/-- A video file whose metadata surface never reports: the promise in the
extraction block never settles. -/
def stalledVideo : UploadFile :=
  { name := "clip.mp4", mime := "video/mp4", size := 7, rand := "k1",
    uploadOk := true, meta := MetaOutcome.neverSettles, dbOk := true }

/-- C3 counterexample: a batch holding a video whose metadata surface never
reports does not complete — the awaited promise has no rejection path, so
the loop suspends forever and no summary is reported. -/
theorem claim_C3_batch_stalls_counterexample :
    handleFileSelect ("e1") ("") ("") [stalledVideo] = none := by decide

/-- A second stalled video, for the metadata claim. -/
def stalledVideo2 : UploadFile :=
  { name := "dance.mp4", mime := "video/mp4", size := 9, rand := "k2",
    uploadOk := true, meta := MetaOutcome.neverSettles, dbOk := true }

/-- A video whose extraction throws synchronously into the catch. -/
def throwingVideo : UploadFile :=
  { name := "fun.mp4", mime := "video/mp4", size := 9, rand := "k3",
    uploadOk := true, meta := MetaOutcome.throwsSync, dbOk := true }

/-- C7: a synchronously thrown extraction error is caught and the upload
completes with null metadata, but a video whose metadata surface never
reports makes the awaited promise hang, so that file's upload never
finishes and the batch returns nothing — contradicting the claim that
every extraction failure still lets the upload complete. -/
theorem claim_C7_metadata_failure :
    handleFileSelect ("e1") ("") ("") [stalledVideo2] = none ∧
    handleFileSelect ("e1") ("") ("") [throwingVideo] =
      some ([{ event_id := "e1", storage_path := "e1/k3.mp4",
               uploader_name := none, caption := none,
               file_type := "video/mp4", file_size := 9, is_video := true,
               video_duration := none, video_width := none, video_height := none,
               file_extension := ".mp4" }], [("Files uploaded!")]) := by
  constructor
  · decide
  · decide

/-- A row of the `photos` table as a realtime payload carries it (migration
lines 17 to 26); `created_at` is the sole sort key, modelled as a number. -/
structure Photo where
  id : String
  event_id : String
  storage_path : String
  created_at : Nat
  deriving DecidableEq

/-- Newest first: `created_at` never increases along the list — the order
`fetchPhotos` requests (GuestView.tsx line 130). -/
def sortedNewestFirst (l : List Photo) : Prop :=
  List.Pairwise (fun a b => b.created_at ≤ a.created_at) l

/-- The photos INSERT notification handler (GuestView.tsx lines 67 to 71):
prepend the payload to the local list, with no further check. -/
def photosInsertHandler (prev : List Photo) (payloadNew : Photo) : List Photo :=
  payloadNew :: prev

/-- The filter string the photos channel subscribes with (GuestView.tsx
line 65): the template ends at `eq.` with no event id interpolated. -/
def photosChannelFilter : String := "event_id=eq."

instance : IsTotal Photo (fun a b => b.created_at ≤ a.created_at) :=
  ⟨fun a b => Nat.le_total b.created_at a.created_at⟩

instance : IsTrans Photo (fun a b => b.created_at ≤ a.created_at) :=
  ⟨fun _ _ _ hab hbc => le_trans hbc hab⟩

/-- `fetchPhotos` (GuestView.tsx lines 123 to 133): select the event's rows
ordered by `created_at` descending, modelled as a sort of the store's rows
filtered to the event. -/
def fetchPhotosQuery (db : List Photo) (eventId : String) : List Photo :=
  List.insertionSort (fun a b => b.created_at ≤ a.created_at)
    (db.filter (fun p => p.event_id == eventId))

/-- C4 as amended: prepending a notified item preserves the newest-first
invariant provided the item is at least as new as every item already in the
list (true of an in-order insert notification, whose row was just created);
and the delete-merge path, a full refetch, always yields a newest-first
list. -/
theorem claim_C4_sorted_insert_merge (prev : List Photo) (payloadNew : Photo)
    (hsorted : sortedNewestFirst prev)
    (hnewest : ∀ q ∈ prev, q.created_at ≤ payloadNew.created_at) :
    sortedNewestFirst (photosInsertHandler prev payloadNew) ∧
    ∀ (db : List Photo) (eventId : String), sortedNewestFirst (fetchPhotosQuery db eventId) := by
  constructor
  · exact List.pairwise_cons.mpr ⟨hnewest, hsorted⟩
  · intro db eventId
    exact List.sorted_insertionSort (fun a b : Photo => b.created_at ≤ a.created_at)
      (db.filter (fun p => p.event_id == eventId))

/-- A concrete photo of the active event. -/
def photoAt (i : String) (t : Nat) : Photo :=
  { id := i, event_id := "event-1", storage_path := i, created_at := t }

/-- Concrete instance of C4 as amended: prepending a payload newer than the
one listed item keeps the list newest first. -/
theorem claim_C4_sorted_insert_merge_witness :
    sortedNewestFirst [photoAt ("a") 5] ∧
    ((photoAt ("a") 5).created_at ≤ (photoAt ("b") 7).created_at) ∧
    sortedNewestFirst (photosInsertHandler [photoAt ("a") 5] (photoAt ("b") 7)) :=
  ⟨List.pairwise_singleton _ _, by decide,
    (claim_C4_sorted_insert_merge [photoAt ("a") 5] (photoAt ("b") 7)
      (List.pairwise_singleton _ _) (by decide)).1⟩

/-- C4 counterexample: the handler prepends unconditionally, so a notified
item older than the list head lands in front of a newer item and the
newest-first invariant is lost. -/
theorem claim_C4_prepend_breaks_order_counterexample :
    sortedNewestFirst [photoAt ("a") 5] ∧
    photosInsertHandler [photoAt ("a") 5] (photoAt ("b") 3) =
      [photoAt ("b") 3, photoAt ("a") 5] ∧
    (photoAt ("b") 3).created_at < (photoAt ("a") 5).created_at ∧
    ¬ sortedNewestFirst (photosInsertHandler [photoAt ("a") 5] (photoAt ("b") 3)) := by
  refine ⟨List.pairwise_singleton _ _, rfl, by decide, ?_⟩
  intro h
  have := (List.pairwise_cons.mp h).1 (photoAt ("a") 5) (List.mem_singleton_self _)
  simp [photoAt] at this

/-- A realtime INSERT payload for a photo of a different event. -/
def foreignPhoto : Photo :=
  { id := "p9", event_id := "event-2", storage_path := "x.jpg", created_at := 10 }

/-- C5: the subscription's filter string carries no event id — the template
ends at `eq.` — and the INSERT handler prepends any payload without checking
its event, so a photo of a different event is added to the local list. -/
theorem claim_C5_cross_event_leak :
    photosChannelFilter = ("event_id=eq.") ∧
    ((foreignPhoto.event_id == ("event-1")) = false) ∧
    photosInsertHandler [] foreignPhoto = [foreignPhoto] ∧
    foreignPhoto ∈ photosInsertHandler [] foreignPhoto :=
  ⟨rfl, by decide, rfl, List.mem_singleton_self _⟩

/-- The fields of a media item the download hook reads (use-media-download,
lines 4 to 9). -/
structure MediaItem where
  storage_path : String
  file_extension : Option String
  is_video : Bool
  deriving DecidableEq

/-- The extension chosen for a downloaded file: the stored extension when it
is non-empty, else `.mp4` for videos and `.jpg` otherwise
(`media.file_extension || (media.is_video ? '.mp4' : '.jpg')`). -/
def mediaExtension (m : MediaItem) : String :=
  match m.file_extension with
  | some s => if s == ("") then (if m.is_video then (".mp4") else (".jpg")) else s
  | none => if m.is_video then (".mp4") else (".jpg")

/-- The archive entry name for the item at zero-based position `i`:
`media-` with the one-based position and the extension
(use-media-download, lines 79 to 80). -/
def zipEntryName (i : Nat) (m : MediaItem) : String :=
  ("media-") ++ toString (i + 1) ++ mediaExtension m

/-- The per-item loop of `downloadMultiple` (use-media-download, lines 71 to
85): each item is paired with its fetch result; a fetched blob becomes an
archive entry named by position, a failed fetch is logged and skipped, and
the loop continues either way. -/
def downloadMultipleEntries : Nat → List (MediaItem × Option String) → List (String × String)
  | _, [] => []
  | i, (m, fetched) :: rest =>
    match fetched with
    | some blob => (zipEntryName i m, blob) :: downloadMultipleEntries (i + 1) rest
    | none => downloadMultipleEntries (i + 1) rest

theorem downloadMultipleEntries_length (l : List (MediaItem × Option String)) :
    ∀ k, (downloadMultipleEntries k l).length = (l.filter (fun x => x.2.isSome)).length := by
  induction l with
  | nil => intro k; rfl
  | cons x rest ih =>
    intro k
    obtain ⟨m, fetched⟩ := x
    cases fetched with
    | some blob => simp [downloadMultipleEntries, List.filter_cons, ih]
    | none => simp [downloadMultipleEntries, List.filter_cons, ih]

theorem downloadMultipleEntries_mem (l : List (MediaItem × Option String)) :
    ∀ (k i : Nat) (m : MediaItem) (blob : String), l[i]? = some (m, some blob) →
      (zipEntryName (k + i) m, blob) ∈ downloadMultipleEntries k l := by
  induction l with
  | nil =>
    intro k i m blob h
    simp at h
  | cons x rest ih =>
    intro k i m blob h
    cases i with
    | zero =>
      simp at h
      rw [h]
      exact List.mem_cons_self _ _
    | succ n =>
      rw [List.getElem?_cons_succ] at h
      obtain ⟨m2, f2⟩ := x
      have harith : k + (n + 1) = (k + 1) + n := by omega
      cases f2 with
      | some b =>
        rw [harith]
        exact List.mem_cons_of_mem _ (ih (k + 1) n m blob h)
      | none =>
        rw [harith]
        exact ih (k + 1) n m blob h

/-- The three-item export where exactly the second item's fetch fails. -/
def exportItem (p : String) : MediaItem :=
  { storage_path := p, file_extension := some (".jpg"), is_video := false }

/-- The demo export list: items one and three fetch their blobs, item two
fails. -/
def exportDemo : List (MediaItem × Option String) :=
  [(exportItem ("a"), some ("b1")), (exportItem ("b"), none), (exportItem ("c"), some ("b3"))]

/-- C6: the archive holds exactly the items whose fetch succeeded, each
entry named deterministically by its position in the list and its
extension; a per-item failure only skips that item. In the three-item
export with the second fetch failing, the archive holds exactly entries
one and three. -/
theorem claim_C6_export_resilience :
    (∀ (items : List (MediaItem × Option String)),
      (downloadMultipleEntries 0 items).length = (items.filter (fun x => x.2.isSome)).length ∧
      ∀ (i : Nat) (m : MediaItem) (blob : String), items[i]? = some (m, some blob) →
        (zipEntryName i m, blob) ∈ downloadMultipleEntries 0 items) ∧
    downloadMultipleEntries 0 exportDemo = [(("media-1.jpg"), ("b1")), (("media-3.jpg"), ("b3"))] := by
  constructor
  · intro items
    refine ⟨downloadMultipleEntries_length items 0, ?_⟩
    intro i m blob h
    have := downloadMultipleEntries_mem items 0 i m blob h
    simpa using this
  · decide

/-- Concrete instance of C6: the third demo item's fetched blob appears in
the archive under the name derived from its position. -/
theorem claim_C6_export_resilience_witness :
    exportDemo[2]? = some (exportItem ("c"), some ("b3")) ∧
    (zipEntryName 2 (exportItem ("c")), ("b3")) ∈ downloadMultipleEntries 0 exportDemo :=
  ⟨by decide, (claim_C6_export_resilience.1 exportDemo).2 2 (exportItem ("c")) ("b3") (by decide)⟩

/-- The reactions shown on one media card (MediaCard, line 55 and EventView):
the rows whose photo id matches. -/
def getPhotoReactions (reactions : List Reaction) (photoId : String) : List Reaction :=
  reactions.filter (fun r => r.photo_id == photoId)

/-- The badge counts of one media card (MediaCard, lines 56 to 60): the fold
that increments the count at the row's emoji, read as a table from emoji to
count. -/
def reactionCounts (mediaReactions : List Reaction) : String → Nat :=
  mediaReactions.foldl (fun acc r => fun e => if e == r.emoji then acc e + 1 else acc e)
    (fun _ => 0)

theorem reactionCounts_foldl (l : List Reaction) :
    ∀ (acc : String → Nat) (e : String),
      (l.foldl (fun acc r => fun e2 => if e2 == r.emoji then acc e2 + 1 else acc e2) acc) e
        = acc e + l.countP (fun r => e == r.emoji) := by
  induction l with
  | nil =>
    intro acc e
    simp
  | cons r rest ih =>
    intro acc e
    rw [List.foldl_cons, ih, List.countP_cons]
    by_cases hc : (e == r.emoji) = true
    · simp only [hc, if_true, if_pos]
      omega
    · simp only [hc]
      simp at hc
      simp [hc]

theorem reactionCounts_eq_countP (m : List Reaction) (e : String) :
    reactionCounts m e = m.countP (fun r => e == r.emoji) := by
  unfold reactionCounts
  rw [reactionCounts_foldl]
  omega

/-- C8: the badge count for an emoji on a media item is the number of rows
with that (photo, emoji) pair over all guest identifiers; the has-reacted
boolean holds exactly when a row matches the photo, the emoji and the
session's identifier; another identity's row never changes this session's
boolean; and any identity's row for the pair raises the badge count by
one. -/
theorem claim_C8_reaction_counts (reactions : List Reaction) (photoId emoji guestId : String) :
    reactionCounts (getPhotoReactions reactions photoId) emoji
      = reactions.countP (fun r => (emoji == r.emoji) && (r.photo_id == photoId)) ∧
    (hasReactedList reactions guestId photoId emoji = true ↔
      ∃ r ∈ reactions, r.photo_id = photoId ∧ r.emoji = emoji ∧ r.guest_identifier = guestId) ∧
    (∀ x : Reaction, x.guest_identifier ≠ guestId →
      hasReactedList (x :: reactions) guestId photoId emoji
        = hasReactedList reactions guestId photoId emoji) ∧
    (∀ x : Reaction, x.photo_id = photoId → x.emoji = emoji →
      reactionCounts (getPhotoReactions (x :: reactions) photoId) emoji
        = reactionCounts (getPhotoReactions reactions photoId) emoji + 1) := by
  refine ⟨?_, ?_, ?_, ?_⟩
  · rw [reactionCounts_eq_countP]
    unfold getPhotoReactions
    rw [List.countP_filter]
  · simp only [hasReactedList, List.any_eq_true, reactionMatches, Bool.and_eq_true,
      beq_iff_eq, and_assoc]
  · intro x hx
    unfold hasReactedList
    rw [List.any_cons]
    have hm : reactionMatches x photoId emoji guestId = false := by
      unfold reactionMatches
      rw [beq_eq_false_iff_ne.mpr hx]
      simp
    rw [hm]
    simp
  · intro x hxp hxe
    rw [reactionCounts_eq_countP, reactionCounts_eq_countP]
    unfold getPhotoReactions
    rw [List.filter_cons]
    have hxp2 : (x.photo_id == photoId) = true := beq_iff_eq.mpr hxp
    rw [hxp2]
    simp only [if_pos, List.countP_cons]
    have hxe2 : (emoji == x.emoji) = true := beq_iff_eq.mpr hxe.symm
    rw [hxe2]
    simp

/-- Concrete instance of C8: on the same photo, a second guest's `heart`
leaves the first guest's has-reacted boolean unchanged while raising the
badge count by one. -/
theorem claim_C8_reaction_counts_witness :
    ((⟨"i2", "p1", "heart", "g2"⟩ : Reaction).guest_identifier ≠ "g1") ∧
    hasReactedList (⟨"i2", "p1", "heart", "g2"⟩ :: [⟨"i1", "p1", "heart", "g1"⟩]) "g1" "p1" "heart"
      = hasReactedList [⟨"i1", "p1", "heart", "g1"⟩] "g1" "p1" "heart" ∧
    reactionCounts
        (getPhotoReactions (⟨"i2", "p1", "heart", "g2"⟩ :: [⟨"i1", "p1", "heart", "g1"⟩]) "p1")
        "heart"
      = reactionCounts (getPhotoReactions [⟨"i1", "p1", "heart", "g1"⟩] "p1") "heart" + 1 :=
  ⟨by decide,
    (claim_C8_reaction_counts [⟨"i1", "p1", "heart", "g1"⟩] "p1" "heart" "g1").2.2.1
      ⟨"i2", "p1", "heart", "g2"⟩ (by decide),
    (claim_C8_reaction_counts [⟨"i1", "p1", "heart", "g1"⟩] "p1" "heart" "g1").2.2.2
      ⟨"i2", "p1", "heart", "g2"⟩ rfl rfl⟩

/-- How a download operation hands control back to its caller: a normal
return, or by re-raising the caught error. -/
inductive CallOutcome
  | completed
  | raisedErr
  deriving DecidableEq

/-- `downloadSingle` of the download hook (use-media-download, lines 20 to
50): on fetch failure the catch shows the failure toast and then re-throws
the caught error to the caller; on success the success toast is shown. The
first component tells how control returns, the second lists the toasts. -/
def downloadSingle (fetchOk : Bool) : CallOutcome × List String :=
  if fetchOk then (CallOutcome.completed, [("Downloaded successfully")])
  else (CallOutcome.raisedErr, [("Failed to download file")])

/-- `handleDownload` of the media card (MediaCard): the same fetch wrapped
in a catch that only toasts — a failure never propagates to the rendering
layer. -/
def handleDownload (allowDownloads fetchOk : Bool) : CallOutcome × List String :=
  if allowDownloads = false then (CallOutcome.completed, [])
  else if fetchOk then (CallOutcome.completed, [("Downloaded successfully")])
  else (CallOutcome.completed, [("Failed to download")])

/-- `fetchPhotos`'s handling of the query result (GuestView.tsx lines 123
to 133): the response is destructured to its data only, the error is
discarded, and the local list becomes the data with an empty-list fallback.
`none` stands for a failed query. The triple is the resulting list, how
control returns and the toasts shown. -/
def fetchPhotosCall (result : Option (List Photo)) :
    List Photo × CallOutcome × List String :=
  (result.getD [], CallOutcome.completed, [])

/-- `fetchReactions`'s handling of the query result (GuestView.tsx lines
135 to 141): same shape as the photo refetch — error discarded, empty-list
fallback, no toast. -/
def fetchReactionsCall (result : Option (List Reaction)) :
    List Reaction × CallOutcome × List String :=
  (result.getD [], CallOutcome.completed, [])

/-- `downloadMultiple` (use-media-download, lines 52 to 106) around its
per-item loop: per-item fetch failures are only logged inside the loop;
the outer try then offers the archive with a count-naming success toast,
while an outer zip failure is toasted and the caught error re-thrown.
`zipOk` stands for the outer archive generation succeeding. The triple is
the archive's entries, how control returns and the toasts shown. -/
def downloadMultipleCall (items : List (MediaItem × Option String)) (zipOk : Bool) :
    List (String × String) × CallOutcome × List String :=
  if zipOk then
    (downloadMultipleEntries 0 items, CallOutcome.completed,
      [("Downloaded ") ++ toString items.length ++ (" files as zip")])
  else ([], CallOutcome.raisedErr, [("Failed to download files as zip")])

/-- C9 counterexample: on a failed fetch the single-media download notifies
the user and then completes by re-raising the caught error rather than
returning normally; and the notification clause fails elsewhere — a failed
photo query is swallowed with no notification and an empty-list fallback,
and a reaction insert the store rejects surfaces no notification either. -/
theorem claim_C9_rethrow_counterexample :
    downloadSingle false = (CallOutcome.raisedErr, [("Failed to download file")]) ∧
    (downloadSingle false).1 ≠ CallOutcome.completed ∧
    fetchPhotosCall none = ([], CallOutcome.completed, []) ∧
    fetchReactionsCall none = ([], CallOutcome.completed, []) ∧
    (handleReaction ⟨"g1", [⟨"r1", "p1", "star", "g1"⟩], []⟩ "p1" "star" "r2").2 = [] :=
  ⟨rfl, by decide, rfl, rfl, by decide⟩

/-- C9 as amended: every failure is caught at the point of the network
call — each operation either returns normally or re-raises only after its
catch ran — and the media card's download handler never propagates one to
the rendering layer; but not every failure becomes a user-facing
notification: the photo and reaction refetches return normally with no
toast and an empty-list fallback, the reaction toggle shows no toast on any
path, and the batch export's per-item fetch failures change neither its
outcome nor its toasts; the single-media download and the batch export's
outer handler notify the user and then re-raise the caught error. -/
theorem claim_C9_failures_notified :
    (∀ fetchOk : Bool, (downloadSingle fetchOk).2 ≠ [] ∧
      (fetchOk = false →
        (downloadSingle fetchOk).1 = CallOutcome.raisedErr ∧
        (downloadSingle fetchOk).2 = [("Failed to download file")])) ∧
    (∀ allowDownloads fetchOk : Bool,
      (handleDownload allowDownloads fetchOk).1 = CallOutcome.completed) ∧
    (∀ result : Option (List Photo),
      (fetchPhotosCall result).2 = (CallOutcome.completed, ([] : List String))) ∧
    (∀ result : Option (List Reaction),
      (fetchReactionsCall result).2 = (CallOutcome.completed, ([] : List String))) ∧
    (fetchPhotosCall none).1 = [] ∧
    (fetchReactionsCall none).1 = [] ∧
    (∀ (s : GuestState) (photoId emoji freshId : String),
      (handleReaction s photoId emoji freshId).2 = []) ∧
    (∀ (items1 items2 : List (MediaItem × Option String)) (zipOk : Bool),
      items1.length = items2.length →
      (downloadMultipleCall items1 zipOk).2 = (downloadMultipleCall items2 zipOk).2) ∧
    (∀ (items : List (MediaItem × Option String)),
      (downloadMultipleCall items false).1 = [] ∧
      (downloadMultipleCall items false).2.1 = CallOutcome.raisedErr ∧
      (downloadMultipleCall items false).2.2 = [("Failed to download files as zip")]) := by
  refine ⟨?_, ?_, fun _ => rfl, fun _ => rfl, rfl, rfl, ?_, ?_, fun _ => ⟨rfl, rfl, rfl⟩⟩
  · intro fetchOk
    cases fetchOk <;> simp [downloadSingle]
  · intro allowDownloads fetchOk
    cases fetchOk <;> cases allowDownloads <;> simp [handleDownload]
  · intro s photoId emoji freshId
    unfold handleReaction
    cases s.localReactions.find? (fun r => reactionMatches r photoId emoji s.guestId) with
    | some existing => rfl
    | none =>
        cases dbInsertReaction s.db
            { id := freshId, photo_id := photoId, emoji := emoji,
              guest_identifier := s.guestId } with
        | ok db2 => rfl
        | error e => rfl
  · intro items1 items2 zipOk hlen
    cases zipOk with
    | true => simp [downloadMultipleCall, hlen]
    | false => rfl

/-- One operation the owner's photo-delete handler issues, in order. -/
inductive OwnerOp
  | dbDeletePhoto (photoId : String)
  | storageRemove (path : String)
  | toastError (msg : String)
  | toastSuccess (msg : String)
  | refetchPhotos
  deriving DecidableEq

/-- `handleDeletePhoto` of the owner's event page as the sequence of
operations it issues: after the confirm dialog, delete the database row
first; if that fails, show the error toast and stop; only after a
successful row delete remove the storage blob, toast success and
refetch. -/
def handleDeletePhoto (photoId storagePath : String) (confirmed dbOk : Bool) : List OwnerOp :=
  if confirmed = false then []
  else if dbOk = false then
    [OwnerOp.dbDeletePhoto photoId, OwnerOp.toastError ("Failed to delete photo")]
  else
    [OwnerOp.dbDeletePhoto photoId, OwnerOp.storageRemove storagePath,
      OwnerOp.toastSuccess ("Photo deleted"), OwnerOp.refetchPhotos]

/-- Whether an operation touches the storage blob. -/
def isStorageRemoveOp : OwnerOp → Bool
  | OwnerOp.storageRemove _ => true
  | _ => false

/-- C10: when the row delete fails, the handler issues only the row delete
and the error notification — no storage operation touches the blob; when
the row delete succeeds, the blob removal is issued strictly after it,
followed by the success toast and the refetch. -/
theorem claim_C10_delete_ordering (photoId storagePath : String) :
    handleDeletePhoto photoId storagePath true false =
      [OwnerOp.dbDeletePhoto photoId, OwnerOp.toastError ("Failed to delete photo")] ∧
    (handleDeletePhoto photoId storagePath true false).any isStorageRemoveOp = false ∧
    handleDeletePhoto photoId storagePath true true =
      [OwnerOp.dbDeletePhoto photoId, OwnerOp.storageRemove storagePath,
        OwnerOp.toastSuccess ("Photo deleted"), OwnerOp.refetchPhotos] :=
  ⟨rfl, rfl, rfl⟩

end MemoryWeaveHub
